import Mathlib

/-!
Verification of the ClaudeContextTerminal repository against its
natural-language specification.

Part A embeds the React front-end code that exists in the repository
(`src/src/contexts/KanbanProvider.tsx` and
`src/claude-context-terminal/src/components/Layout/ResizablePanel.tsx`).

Part B models the tool-execution and permission-gating core.  That core is
described by the planning document (`src/unnamed/part_000`) and by the
specification, but its Rust implementation (`src/permission/mod.rs`,
`src/llm/tools/mod.rs`, `src/llm/tools/safe.rs`, …) is not present in the
repository; every definition of Part B is therefore modelled from the
specification text, as its doc comment records.
-/

/-! ## Part A.1 — Kanban data model and reducer
    From `src/src/contexts/KanbanProvider.tsx` and
    `src/claude-context-terminal/src/types/index.ts`. -/

namespace Kanban

/-- `Task['status']` from `types/index.ts`: `'todo' | 'in_progress' | 'done'`. -/
inductive TaskStatus where
  | todo
  | in_progress
  | done
  deriving DecidableEq, Repr

/-- `Task['priority']` from `types/index.ts`: `'low' | 'medium' | 'high'`. -/
inductive TaskPriority where
  | low
  | medium
  | high
  deriving DecidableEq, Repr

/-- The `Task` interface from `types/index.ts` (optional fields as `Option`). -/
structure Task where
  id : String
  title : String
  description : String
  status : TaskStatus
  priority : TaskPriority
  tags : List String
  prompt : String
  claudeContext : Option String
  createdAt : String
  updatedAt : String
  deriving DecidableEq, Repr

/-- The `KanbanState` interface from `KanbanProvider.tsx`
    (`error: string | null` becomes `Option String`,
     `selectedTask: Task | null` becomes `Option Task`). -/
structure KanbanState where
  tasks : List Task
  isLoading : Bool
  error : Option String
  selectedTask : Option Task
  deriving DecidableEq, Repr

/-- The `KanbanAction` union type from `KanbanProvider.tsx`. -/
inductive KanbanAction where
  | SET_TASKS (payload : List Task)
  | ADD_TASK (payload : Task)
  | UPDATE_TASK (payload : Task)
  | DELETE_TASK (payload : String)
  | SET_SELECTED_TASK (payload : Option Task)
  | SET_LOADING (payload : Bool)
  | SET_ERROR (payload : Option String)
  deriving DecidableEq, Repr

/-- `initialState` from `KanbanProvider.tsx`. -/
def kanbanInitialState : KanbanState :=
  { tasks := [], isLoading := false, error := none, selectedTask := none }

/-- `kanbanReducer` from `KanbanProvider.tsx`, lines 28–57.  The optional
    chaining `state.selectedTask?.id === action.payload.id` is `false` when
    `selectedTask` is `null`, hence the `Option.map` shape below. -/
def kanbanReducer (state : KanbanState) (action : KanbanAction) : KanbanState :=
  match action with
  | .SET_TASKS payload => { state with tasks := payload }
  | .ADD_TASK payload => { state with tasks := state.tasks ++ [payload] }
  | .UPDATE_TASK payload =>
      { state with
        tasks := state.tasks.map (fun task =>
          if task.id = payload.id then payload else task)
        selectedTask :=
          match state.selectedTask with
          | some sel => if sel.id = payload.id then some payload else some sel
          | none => none }
  | .DELETE_TASK payload =>
      { state with
        tasks := state.tasks.filter (fun task => task.id ≠ payload)
        selectedTask :=
          match state.selectedTask with
          | some sel => if sel.id = payload then none else some sel
          | none => none }
  | .SET_SELECTED_TASK payload => { state with selectedTask := payload }
  | .SET_LOADING payload => { state with isLoading := payload }
  | .SET_ERROR payload => { state with error := payload }

end Kanban

/-! ## Part A.2 — SplitView resize handling
    From `src/claude-context-terminal/src/components/Layout/ResizablePanel.tsx`,
    `SplitView`, lines 77–88.  Widths are percentages; JavaScript numbers are
    modelled by `ℚ` (the resize arithmetic is division, multiplication, `min`
    and `max`, whose clamping behaviour is the same over `ℚ`). -/

/-- `useState(33)`: the initial `leftPanelWidth` of `SplitView`. -/
def splitViewInitialWidth : ℚ := 33

/-- One `mousemove`-driven resize event as seen by `SplitView.handleResize`:
    the pixel offset `newWidth` passed by `ResizablePanel` and the container
    width read from `containerRef.current.offsetWidth`. -/
structure ResizeEvent where
  newWidth : ℚ
  containerWidth : ℚ
  deriving DecidableEq, Repr

/-- The body of `SplitView.handleResize` (lines 82–88): convert the pixel
    offset to a percentage of the container and clamp it with
    `Math.min(Math.max(percentage, 20), 60)`.  The returned value is what is
    passed to `setLeftPanelWidth`. -/
def handleResize (e : ResizeEvent) : ℚ :=
  min (max (e.newWidth / e.containerWidth * 100) 20) 60

/-- The `leftPanelWidth` state after a sequence of resize events, starting
    from a given width: each event replaces the width with the clamped
    percentage computed by `handleResize`. -/
def applyResizes (init : ℚ) (events : List ResizeEvent) : ℚ :=
  events.foldl (fun _ e => handleResize e) init

/-! ## Part B — the tool-execution and permission-gating core.
    The Rust sources this specifies (`src/permission/mod.rs`,
    `src/llm/tools/mod.rs`, `src/llm/tools/safe.rs`) are missing from the
    repository — only the planning document `src/unnamed/part_000` declares
    their surface — so everything below is modelled from the specification. -/

namespace Goofy

/-- Modelled from the spec (§3 `Capability`, missing `src/permission/mod.rs`):
    `Read | Write | Execute | Network | Dangerous`, independent risk axes. -/
inductive Capability where
  | Read
  | Write
  | Execute
  | Network
  | Dangerous
  deriving DecidableEq, Repr

/-- Modelled from the spec (§3 `ValidationFinding.kind`, missing
    `src/permission/validator.rs`):
    `PathTraversal | AbsoluteEscape | DangerousToken | NoneFound`. -/
inductive FindingKind where
  | PathTraversal
  | AbsoluteEscape
  | DangerousToken
  | NoneFound
  deriving DecidableEq, Repr

/-- `true` for the two findings that report an escape from the workspace. -/
def FindingKind.isEscape : FindingKind → Bool
  | .PathTraversal => true
  | .AbsoluteEscape => true
  | _ => false

/-- `true` for every finding other than `NoneFound`. -/
def FindingKind.isFlagged : FindingKind → Bool
  | .NoneFound => false
  | _ => true

/-! ### Paths and the Safety Validator (spec §4.1, missing
    `src/llm/tools/safe.rs` / `src/permission/validator.rs`).
    A canonical path is a list of components with no `.`, `..` or symlink
    left in it; a raw path may be absolute or relative and may contain
    `.` and `..`.  A filesystem is the symlink table the validator resolves
    against. -/

/-- A possibly-uncanonical path as handed to a tool: absolute or relative,
    components may include `"."` and `".."`. -/
structure RawPath where
  absolute : Bool
  components : List String
  deriving DecidableEq, Repr

/-- Modelled from the spec (§4.1): the filesystem facts canonicalization
    needs — which canonical absolute paths are symlinks, and where each
    points (the target may itself be relative to the link's directory). -/
structure FileSystem where
  symlinks : List (List String × RawPath)
  deriving Repr

/-- Look up a canonical absolute path in the symlink table. -/
def lookupLink (fs : FileSystem) (p : List String) : Option RawPath :=
  (fs.symlinks.find? (fun e => e.1 == p)).map (·.2)

/-- Modelled from the spec (§4.1 `validate_path`, missing
    `src/llm/tools/safe.rs`): canonicalize a component list left to right.
    `acc` is the canonical absolute path built so far; `"."` is dropped,
    `".."` pops one component (at the root it stays at the root, as on a
    POSIX filesystem), and a component that lands on a symlink is replaced
    by the link's target before the remainder is processed.  `fuel` bounds
    symlink chasing; a cycle exhausts it and yields `none`. -/
def canonSteps (fs : FileSystem) : Nat → List String → List String →
    Option (List String)
  | _, acc, [] => some acc
  | 0, _, _ :: _ => none
  | fuel + 1, acc, c :: rest =>
    if c = "." then
      canonSteps fs fuel acc rest
    else if c = ".." then
      canonSteps fs fuel acc.dropLast rest
    else
      match lookupLink fs (acc ++ [c]) with
      | none => canonSteps fs fuel (acc ++ [c]) rest
      | some target =>
        if target.absolute then
          canonSteps fs fuel [] (target.components ++ rest)
        else
          canonSteps fs fuel acc (target.components ++ rest)

/-- Canonicalize an absolute component list (resolving `.`, `..` and
    symlinks), with the given symlink-chasing fuel. -/
def canonicalize (fs : FileSystem) (fuel : Nat) (p : List String) :
    Option (List String) :=
  canonSteps fs fuel [] p

/-- `true` when canonical path `p` is the canonical path `root` or a
    descendant of it (`root` is a leading run of `p`'s components). -/
def underPath : List String → List String → Bool
  | [], _ => true
  | _ :: _, [] => false
  | r :: rs, c :: cs => r == c && underPath rs cs

/-- The absolute component list `validate_path` canonicalizes: an absolute
    candidate as given, a relative candidate joined to the workspace root. -/
def joinCandidate (workspace_root : List String) (candidate : RawPath) :
    List String :=
  if candidate.absolute then candidate.components
  else workspace_root ++ candidate.components

/-- Modelled from the spec (§4.1, missing `src/llm/tools/safe.rs`):
    `validate_path(candidate, workspace_root)` canonicalizes the candidate —
    resolving `..` and symlinks — and only then checks that the result is a
    descendant of `workspace_root`.  A relative path escaping the root is
    `PathTraversal`; an absolute path resolving outside the root is
    `AbsoluteEscape`; a candidate whose canonicalization fails (symlink
    cycle) is conservatively reported the same way; otherwise `NoneFound`. -/
def validate_path (fs : FileSystem) (fuel : Nat) (candidate : RawPath)
    (workspace_root : List String) : FindingKind :=
  match canonicalize fs fuel (joinCandidate workspace_root candidate) with
  | none =>
    if candidate.absolute then .AbsoluteEscape else .PathTraversal
  | some c =>
    if underPath workspace_root c then .NoneFound
    else if candidate.absolute then .AbsoluteEscape else .PathTraversal

/-- `true` when the token-sequence `pat` starts at the head of the list. -/
def seqAt : List String → List String → Bool
  | [], _ => true
  | _ :: _, [] => false
  | p :: ps, t :: ts => p == t && seqAt ps ts

/-- `true` when the token-sequence `pat` occurs contiguously in the list. -/
def seqIn (pat : List String) : List String → Bool
  | [] => pat.isEmpty
  | t :: ts => seqAt pat (t :: ts) || seqIn pat ts

/-- Modelled from the spec (§4.1 / §6 configuration, missing
    `src/permission/validator.rs`): the configurable denylist of high-risk
    token sequences — recursive force-delete, disk formatting, privilege
    escalation, and shell metacharacters indicating chaining/substitution. -/
def defaultDenylist : List (List String) :=
  [["rm", "-rf"], ["rm", "-fr"], ["mkfs"], ["dd"], ["sudo"],
   [";"], ["&&"], ["||"], ["|"], ["$("]]

/-- Modelled from the spec (§4.1 `validate_command`, missing
    `src/permission/validator.rs`): flag a command token vector as
    `DangerousToken` when any denylist pattern occurs in it, else
    `NoneFound`.  A conservative denylist, not a shell parser. -/
def validate_command (denylist : List (List String))
    (tokens : List String) : FindingKind :=
  if denylist.any (fun pat => seqIn pat tokens) then .DangerousToken
  else .NoneFound

/-! ### Permission Manager (spec §3 `PermissionState`, §4.2 `decide`;
    missing `src/permission/mod.rs`). -/

/-- Modelled from the spec (§3 `ToolDescriptor`, missing
    `src/llm/tools/mod.rs`): name, description, parameter schema (kept
    abstract as a list of required field names, see §4.4 schema validation)
    and the declared capability. -/
structure ToolDescriptor where
  name : String
  description : String
  parameter_schema : List String
  required_capability : Capability
  deriving DecidableEq, Repr

/-- Modelled from the spec (§3 `PermissionDecision`, missing
    `src/permission/mod.rs`): `Allow | Deny(reason) | AskUser`. -/
inductive PermissionDecision where
  | Allow
  | Deny (reason : String)
  | AskUser
  deriving DecidableEq, Repr

/-- Modelled from the spec (§3 `PermissionState`, missing
    `src/permission/mod.rs`): session-scoped mutable policy state. -/
structure PermissionState where
  yolo_mode : Bool
  session_allow : List String
  denied_paths : List (List String)
  workspace_root : List String
  deriving DecidableEq, Repr

/-- `true` when canonical path `p` falls under some entry of the
    `denied_paths` prefix set. -/
def deniedHit (denied : List (List String)) (p : List String) : Bool :=
  denied.any (fun d => underPath d p)

/-- Modelled from the spec (§4.2 rule 1, missing `src/permission/mod.rs`):
    the hard-deny condition — some validation finding is not `NoneFound` and
    the request's (canonical) target path falls under `denied_paths`, or
    some finding is `PathTraversal`/`AbsoluteEscape`. -/
def rule1Fires (targetPath : Option (List String))
    (findings : List FindingKind) (st : PermissionState) : Bool :=
  (findings.any (·.isFlagged) &&
    (targetPath.map (deniedHit st.denied_paths)).getD false)
  || findings.any (·.isEscape)

/-- Modelled from the spec (§4.2 `decide`, missing `src/permission/mod.rs`):
    `decide(request, descriptor, findings, state)`, first matching rule
    wins, evaluated in order —
    1. hard deny (`rule1Fires`);
    2. `Dangerous` capability or a `DangerousToken` finding → `AskUser`,
       or `Allow` under `yolo_mode` (yolo never bypasses rule 1);
    3. `tool_name ∈ session_allow` → `Allow`;
    4. `Read` capability → `Allow`;
    5. otherwise `AskUser`, or `Allow` under `yolo_mode`. -/
def decide (tool_name : String) (descriptor : ToolDescriptor)
    (targetPath : Option (List String)) (findings : List FindingKind)
    (st : PermissionState) : PermissionDecision :=
  if rule1Fires targetPath findings st then
    .Deny "path explicitly denied or escapes the workspace root"
  else if descriptor.required_capability = .Dangerous
      || findings.any (· = .DangerousToken) then
    if st.yolo_mode then .Allow else .AskUser
  else if st.session_allow.contains tool_name then .Allow
  else if descriptor.required_capability = .Read then .Allow
  else if st.yolo_mode then .Allow else .AskUser

/-! ### Tool Registry (spec §4.3; missing `src/llm/tools/mod.rs`).
    The registry is the registration-ordered list of descriptor /
    implementation pairs; `α` is the implementation type. -/

/-- Modelled from the spec (§7 error taxonomy, missing
    `src/llm/tools/mod.rs`): the typed failures of the core. -/
inductive CoreError where
  | UnknownTool
  | DuplicateTool
  | InvalidArguments
  | PermissionDenied (reason : String)
  | ValidationFailed (finding : FindingKind)
  | ExecutionFailed (detail : String)
  | TimedOut
  | Cancelled
  deriving DecidableEq, Repr

/-- Modelled from the spec (§4.3 `register`, missing
    `src/llm/tools/mod.rs`): append the pair in registration order, or fail
    with `DuplicateTool` — leaving the registry unchanged — when
    `descriptor.name` is already registered. -/
def register (reg : List (ToolDescriptor × α)) (d : ToolDescriptor)
    (impl : α) : List (ToolDescriptor × α) × Option CoreError :=
  if reg.any (fun e => e.1.name == d.name) then (reg, some .DuplicateTool)
  else (reg ++ [(d, impl)], none)

/-- Modelled from the spec (§4.3 `resolve`, missing
    `src/llm/tools/mod.rs`): the first pair registered under `name`, or
    `UnknownTool`. -/
def resolve (reg : List (ToolDescriptor × α)) (name : String) :
    Except CoreError (ToolDescriptor × α) :=
  match reg.find? (fun e => e.1.name == name) with
  | some e => .ok e
  | none => .error .UnknownTool

/-- A registry populated at startup by a sequence of `register` calls
    beginning from the empty registry (failed registrations leave the
    registry as it was). -/
def buildRegistry (ops : List (ToolDescriptor × α)) :
    List (ToolDescriptor × α) :=
  ops.foldl (fun reg o => (register reg o.1 o.2).1) []

/-! ### Execution Engine (spec §4.4, §6, §7; missing engine sources).
    One tool call is driven through the state machine
    `Received → SchemaValidated → PermissionChecked → Executing →
    {Succeeded | Failed | TimedOut | Denied | Cancelled}`. -/

/-- Modelled from the spec (§3 argument documents): one argument value of a
    `ToolRequest` — a plain string, a token vector (e.g. a command), or a
    path (already split into components as the validator consumes it). -/
inductive ArgValue where
  | str (s : String)
  | tokens (ts : List String)
  | path (p : RawPath)
  deriving DecidableEq, Repr

/-- Modelled from the spec (§3 `ToolRequest`, missing engine sources):
    `{ call_id, session_id, tool_name, arguments }`, immutable, consumed
    exactly once. -/
structure ToolRequest where
  call_id : String
  session_id : String
  tool_name : String
  arguments : List (String × ArgValue)
  deriving DecidableEq, Repr

/-- `ToolResponse` as declared by the planning document
    (`src/unnamed/part_000`, `pub struct ToolResponse`) and spec §3:
    `{ content, success, metadata }` (metadata kept as an optional string). -/
structure ToolResponse where
  content : String
  success : Bool
  metadata : Option String
  deriving DecidableEq, Repr

/-- Modelled from the spec (§6): the final outcome handed back to the
    conversation loop — a `ToolResponse` or a typed failure, correlated by
    `call_id`. -/
inductive Outcome where
  | response (call_id : String) (r : ToolResponse)
  | failure (call_id : String) (e : CoreError)
  deriving DecidableEq, Repr

/-- The `call_id` an outcome is correlated by. -/
def Outcome.callId : Outcome → String
  | .response cid _ => cid
  | .failure cid _ => cid

/-- Modelled from the spec (§4.2 / §6): the reply of the interactive-prompt
    collaborator to an `AskUser` prompt. -/
inductive UserReply where
  | AllowOnce
  | AllowSession
  | UserDeny
  deriving DecidableEq, Repr

/-- Modelled from the spec (§4.4): how the tool implementation behaves once
    it is allowed to run — it completes, reports an operational error, its
    time budget elapses, or the owning session is cancelled externally. -/
inductive ExecBehavior where
  | ok (content : String) (metadata : Option String)
  | opError (detail : String)
  | timesOut
  | externalCancel
  deriving DecidableEq, Repr

/-- The `ToolResponse` of a successful execution (§4.4 `Succeeded`). -/
def okResponse (content : String) (metadata : Option String) : ToolResponse :=
  { content := content, success := true, metadata := metadata }

/-- The `ToolResponse` of an operational failure (§4.4 `Failed`): the error
    transcript in `content`, `success = false`. -/
def failResponse (detail : String) : ToolResponse :=
  { content := detail, success := false, metadata := none }

/-- The `ToolResponse` of a timeout (§4.4 `TimedOut`, §7: the message
    reports the configured budget that was exceeded). -/
def timeoutResponse (budget : Nat) : ToolResponse :=
  { content := "execution timed out after " ++ toString budget ++ "ms",
    success := false, metadata := none }

/-- Look up an argument by key in a request's argument document. -/
def getArg (args : List (String × ArgValue)) (key : String) :
    Option ArgValue :=
  (args.find? (fun a => a.1 == key)).map (·.2)

/-- Modelled from the spec (§4.4 schema validation): every field named by
    the descriptor's `parameter_schema` must be present in the arguments. -/
def schemaCheck (schema : List String)
    (args : List (String × ArgValue)) : Bool :=
  schema.all (fun f => args.any (fun a => a.1 == f))

/-- Modelled from the spec (§4.4, §5): everything fixed about one call —
    its request, the resolved descriptor, the session's permission state and
    filesystem, the validator configuration, the prompt collaborator's
    reply if one is asked for, the implementation's behaviour once running,
    and the configured time budget. -/
structure CallCtx where
  request : ToolRequest
  descriptor : ToolDescriptor
  st : PermissionState
  fs : FileSystem
  fuel : Nat
  denylist : List (List String)
  reply : UserReply
  behavior : ExecBehavior
  budget : Nat

/-- The `path` argument of the call, if present. -/
def CallCtx.pathArg (ctx : CallCtx) : Option RawPath :=
  match getArg ctx.request.arguments "path" with
  | some (.path p) => some p
  | _ => none

/-- The `command` token-vector argument of the call, if present. -/
def CallCtx.commandArg (ctx : CallCtx) : Option (List String) :=
  match getArg ctx.request.arguments "command" with
  | some (.tokens ts) => some ts
  | _ => none

/-- Modelled from the spec (§4.4 `SchemaValidated → PermissionChecked`:
    invoke 4.1 then 4.2): the Safety Validator's findings for this call's
    own arguments. -/
def ctxFindings (ctx : CallCtx) : List FindingKind :=
  (match ctx.pathArg with
   | some p => [validate_path ctx.fs ctx.fuel p ctx.st.workspace_root]
   | none => [])
  ++ (match ctx.commandArg with
      | some toks => [validate_command ctx.denylist toks]
      | none => [])

/-- The canonical target path of this call's `path` argument, if it has one
    and canonicalization succeeds. -/
def ctxTargetPath (ctx : CallCtx) : Option (List String) :=
  ctx.pathArg.bind (fun p =>
    canonicalize ctx.fs ctx.fuel (joinCandidate ctx.st.workspace_root p))

/-- The Permission Manager's decision for this call, computed from this
    call's own tool name and arguments. -/
def ctxDecision (ctx : CallCtx) : PermissionDecision :=
  decide ctx.request.tool_name ctx.descriptor (ctxTargetPath ctx)
    (ctxFindings ctx) ctx.st

/-- Modelled from the spec (§4.2 `AskUser` resolution): an `AskUser`
    decision is resolved by the prompt collaborator's reply — both allow
    replies yield `Allow`, a user denial yields `Deny`; `Allow` and `Deny`
    decisions stand as computed. -/
def resolveAsk : PermissionDecision → UserReply → PermissionDecision
  | .AskUser, .AllowOnce => .Allow
  | .AskUser, .AllowSession => .Allow
  | .AskUser, .UserDeny => .Deny "denied by user"
  | d, _ => d

/-- The decision in force when (and if) execution starts. -/
def finalDecision (ctx : CallCtx) : PermissionDecision :=
  resolveAsk (ctxDecision ctx) ctx.reply

/-- Modelled from the spec (§4.4): the per-call lifecycle states.
    `Rejected` is the terminal `InvalidArguments` failure of schema
    validation (no execution attempted). -/
inductive CallPhase where
  | Received
  | SchemaValidated
  | PermissionChecked (d : PermissionDecision)
  | Executing
  | Succeeded (r : ToolResponse)
  | Failed (r : ToolResponse)
  | TimedOut (r : ToolResponse)
  | Denied (reason : String)
  | Cancelled
  | Rejected (e : CoreError)
  deriving DecidableEq, Repr

/-- The terminal states of the call state machine (§4.4). -/
def CallPhase.isTerminal : CallPhase → Bool
  | .Succeeded _ => true
  | .Failed _ => true
  | .TimedOut _ => true
  | .Denied _ => true
  | .Cancelled => true
  | .Rejected _ => true
  | _ => false

/-- Modelled from the spec (§4.4): the transition relation of one call.
    Transitions are strictly sequential within a call; the permission check
    computes `ctxDecision` from this call's own arguments; execution-side
    transitions are selected by the implementation's behaviour. -/
inductive Step (ctx : CallCtx) : CallPhase → CallPhase → Prop where
  | schema_ok :
      schemaCheck ctx.descriptor.parameter_schema ctx.request.arguments =
        true →
      Step ctx .Received .SchemaValidated
  | schema_bad :
      schemaCheck ctx.descriptor.parameter_schema ctx.request.arguments =
        false →
      Step ctx .Received (.Rejected .InvalidArguments)
  | perm_check :
      Step ctx .SchemaValidated (.PermissionChecked (ctxDecision ctx))
  | perm_allow :
      Step ctx (.PermissionChecked .Allow) .Executing
  | perm_deny (reason : String) :
      Step ctx (.PermissionChecked (.Deny reason)) (.Denied reason)
  | ask_allow_once :
      ctx.reply = .AllowOnce →
      Step ctx (.PermissionChecked .AskUser) .Executing
  | ask_allow_session :
      ctx.reply = .AllowSession →
      Step ctx (.PermissionChecked .AskUser) .Executing
  | ask_deny :
      ctx.reply = .UserDeny →
      Step ctx (.PermissionChecked .AskUser) (.Denied "denied by user")
  | exec_ok (content : String) (metadata : Option String) :
      ctx.behavior = .ok content metadata →
      Step ctx .Executing (.Succeeded (okResponse content metadata))
  | exec_fail (detail : String) :
      ctx.behavior = .opError detail →
      Step ctx .Executing (.Failed (failResponse detail))
  | exec_timeout :
      ctx.behavior = .timesOut →
      Step ctx .Executing (.TimedOut (timeoutResponse ctx.budget))
  | exec_cancel :
      ctx.behavior = .externalCancel →
      Step ctx .Executing .Cancelled

/-- Reachability in the call state machine. -/
def Reaches (ctx : CallCtx) : CallPhase → CallPhase → Prop :=
  Relation.ReflTransGen (Step ctx)

/-- Modelled from the spec (§4.4, §6, §7): the single outcome of one
    accepted call, as the conversation loop sees it.  Schema failure is the
    typed `InvalidArguments` failure; a denial is a typed
    `PermissionDenied`; an operational failure or a timeout is a normal
    `ToolResponse` with `success = false`; an external cancellation is the
    typed `Cancelled` failure. -/
def runCall (ctx : CallCtx) : Outcome :=
  if schemaCheck ctx.descriptor.parameter_schema ctx.request.arguments then
    match finalDecision ctx with
    | .Deny reason =>
      .failure ctx.request.call_id (.PermissionDenied reason)
    | .AskUser =>
      .failure ctx.request.call_id (.PermissionDenied "unresolved prompt")
    | .Allow =>
      match ctx.behavior with
      | .ok content metadata =>
        .response ctx.request.call_id (okResponse content metadata)
      | .opError detail =>
        .response ctx.request.call_id (failResponse detail)
      | .timesOut =>
        .response ctx.request.call_id (timeoutResponse ctx.budget)
      | .externalCancel => .failure ctx.request.call_id .Cancelled
  else .failure ctx.request.call_id .InvalidArguments

/-- The terminal phase the call state machine ends in, computed directly. -/
def terminalPhaseOf (ctx : CallCtx) : CallPhase :=
  if schemaCheck ctx.descriptor.parameter_schema ctx.request.arguments then
    match finalDecision ctx with
    | .Deny reason => .Denied reason
    | .AskUser => .Denied "unresolved prompt"
    | .Allow =>
      match ctx.behavior with
      | .ok content metadata => .Succeeded (okResponse content metadata)
      | .opError detail => .Failed (failResponse detail)
      | .timesOut => .TimedOut (timeoutResponse ctx.budget)
      | .externalCancel => .Cancelled
  else .Rejected .InvalidArguments

/-- Modelled from the spec (§5 cancellation): the bookkeeping record of one
    call — its phase and, once terminal, its recorded result. -/
structure CallRecord where
  call_id : String
  phase : CallPhase
  result : Option Outcome
  deriving DecidableEq, Repr

/-- Modelled from the spec (§5: "cancelling an already-terminal call is a
    no-op"): cancel a call.  A call already in a terminal state is left
    unchanged and its original recorded result is returned; a live call
    moves to `Cancelled` and records the typed `Cancelled` outcome. -/
def cancelCall (r : CallRecord) : CallRecord × Option Outcome :=
  if r.phase.isTerminal then (r, r.result)
  else
    let out := Outcome.failure r.call_id CoreError.Cancelled
    ({ r with phase := .Cancelled, result := some out }, some out)

/-! ### Concrete instances used by the witnesses below. -/

/-- A filesystem in which `/ws/link` is a symlink to `/etc` — a symlink
    inside the workspace root pointing outside it (spec §4.1). -/
def exFileSystem : FileSystem :=
  { symlinks := [(["ws", "link"], { absolute := true, components := ["etc"] })] }

/-- Scenario A of §8: a `read_file` call on `src/main.txt` inside the
    workspace `/ws`, with the file containing `"hello"`. -/
def exCtx : CallCtx :=
  { request :=
      { call_id := "call-1", session_id := "sess-1",
        tool_name := "read_file",
        arguments :=
          [("path", .path { absolute := false,
                            components := ["src", "main.txt"] })] }
    descriptor :=
      { name := "read_file", description := "read a file",
        parameter_schema := ["path"], required_capability := .Read }
    st := { yolo_mode := false, session_allow := [], denied_paths := [],
            workspace_root := ["ws"] }
    fs := { symlinks := [] }
    fuel := 8
    denylist := defaultDenylist
    reply := .AllowOnce
    behavior := .ok "hello" none
    budget := 30000 }

/-- The same call, with the implementation reporting an operational error. -/
def exCtxFail : CallCtx := { exCtx with behavior := .opError "No such file" }

/-- The same call, with its time budget elapsing. -/
def exCtxTimeout : CallCtx := { exCtx with behavior := .timesOut }

/-- A call record already in a terminal state, its result recorded. -/
def exRecord : CallRecord :=
  { call_id := "call-9", phase := .Succeeded (okResponse "ok" none),
    result := some (.response "call-9" (okResponse "ok" none)) }

end Goofy

namespace Kanban

/-- A concrete task used by the reducer witness. -/
def exTaskA : Task :=
  { id := "a", title := "Task A", description := "first",
    status := .todo, priority := .low, tags := [], prompt := "",
    claudeContext := none, createdAt := "2024-01-01",
    updatedAt := "2024-01-01" }

/-- A second concrete task with a different id. -/
def exTaskB : Task :=
  { id := "b", title := "Task B", description := "second",
    status := .in_progress, priority := .high, tags := ["ui"], prompt := "",
    claudeContext := none, createdAt := "2024-01-02",
    updatedAt := "2024-01-02" }

/-- An updated version of `exTaskA` (same id, new payload). -/
def exTaskA2 : Task :=
  { exTaskA with title := "Task A updated", status := .done,
                 updatedAt := "2024-01-03" }

/-- A concrete Kanban state with `exTaskA` selected. -/
def exState : KanbanState :=
  { tasks := [exTaskA, exTaskB], isLoading := false, error := none,
    selectedTask := some exTaskA }

end Kanban

/-! ## Theorems -/

/-- Every value `handleResize` produces lies between 20 and 60. -/
theorem handleResize_mem_range (e : ResizeEvent) :
    20 ≤ handleResize e ∧ handleResize e ≤ 60 := by
  unfold handleResize
  exact ⟨le_min (le_max_right _ _) (by norm_num), min_le_right _ _⟩

/-- Applying any sequence of resize events keeps the width in `[20, 60]`
    once it is there. -/
theorem applyResizes_mem_range (events : List ResizeEvent) (init : ℚ)
    (h : 20 ≤ init ∧ init ≤ 60) :
    20 ≤ applyResizes init events ∧ applyResizes init events ≤ 60 := by
  induction events generalizing init with
  | nil => exact h
  | cons e es ih =>
      have hstep : applyResizes init (e :: es) =
          applyResizes (handleResize e) es := rfl
      rw [hstep]
      exact ih _ (handleResize_mem_range e)

/-- Claim C9: `SplitView` initializes `leftPanelWidth` to 33, and every
    value `handleResize` passes to `setLeftPanelWidth` is clamped to
    `min(max(percentage, 20), 60)`; hence after any sequence of resize
    events with positive container width the width is the initial 33 or
    lies between 20 and 60 inclusive. -/
theorem claim9_splitview_width_invariant (events : List ResizeEvent)
    (hpos : ∀ e ∈ events, 0 < e.containerWidth) :
    splitViewInitialWidth = 33 ∧
    (applyResizes splitViewInitialWidth events = splitViewInitialWidth ∨
      (20 ≤ applyResizes splitViewInitialWidth events ∧
        applyResizes splitViewInitialWidth events ≤ 60)) := by
  refine ⟨rfl, ?_⟩
  cases events with
  | nil => exact Or.inl rfl
  | cons e es =>
      refine Or.inr ?_
      have hstep : applyResizes splitViewInitialWidth (e :: es) =
          applyResizes (handleResize e) es := rfl
      rw [hstep]
      exact applyResizes_mem_range es _ (handleResize_mem_range e)

/-- Claim C9 witness: one concrete drag to 500px in a 1000px container. -/
theorem claim9_witness :
    (∀ e ∈ [ResizeEvent.mk 500 1000], 0 < e.containerWidth) ∧
    (splitViewInitialWidth = 33 ∧
      (applyResizes splitViewInitialWidth [ResizeEvent.mk 500 1000] =
          splitViewInitialWidth ∨
        (20 ≤ applyResizes splitViewInitialWidth [ResizeEvent.mk 500 1000] ∧
          applyResizes splitViewInitialWidth [ResizeEvent.mk 500 1000] ≤
            60))) := by
  have hpos : ∀ e ∈ [ResizeEvent.mk 500 1000], 0 < e.containerWidth := by
    intro e he
    rw [List.mem_singleton] at he
    subst he
    decide
  exact ⟨hpos, claim9_splitview_width_invariant _ hpos⟩

namespace Kanban

/-- Claim C10: `kanbanReducer` on `UPDATE_TASK` keeps the task list's
    length and order, rewrites exactly the tasks whose id equals the
    payload's id, replaces `selectedTask` only when its id matches, and
    leaves `isLoading` and `error` untouched; `DELETE_TASK` removes exactly
    the tasks with the given id (a sublist of the original order) and
    clears `selectedTask` only if it was the deleted task. -/
theorem claim10_kanban_reducer_frame (s : KanbanState) (t : Task)
    (i : String) :
    ((kanbanReducer s (.UPDATE_TASK t)).tasks.length = s.tasks.length ∧
      (∀ n : Nat, (kanbanReducer s (.UPDATE_TASK t)).tasks[n]? =
        (s.tasks[n]?).map (fun tk => if tk.id = t.id then t else tk)) ∧
      (∀ (n : Nat) (tk : Task), s.tasks[n]? = some tk → tk.id ≠ t.id →
        (kanbanReducer s (.UPDATE_TASK t)).tasks[n]? = some tk) ∧
      (kanbanReducer s (.UPDATE_TASK t)).selectedTask =
        s.selectedTask.map (fun tk => if tk.id = t.id then t else tk) ∧
      (kanbanReducer s (.UPDATE_TASK t)).isLoading = s.isLoading ∧
      (kanbanReducer s (.UPDATE_TASK t)).error = s.error) ∧
    ((kanbanReducer s (.DELETE_TASK i)).tasks.Sublist s.tasks ∧
      (∀ tk : Task, tk ∈ (kanbanReducer s (.DELETE_TASK i)).tasks ↔
        (tk ∈ s.tasks ∧ tk.id ≠ i)) ∧
      (kanbanReducer s (.DELETE_TASK i)).selectedTask =
        s.selectedTask.bind (fun tk => if tk.id = i then none else some tk) ∧
      (kanbanReducer s (.DELETE_TASK i)).isLoading = s.isLoading ∧
      (kanbanReducer s (.DELETE_TASK i)).error = s.error) := by
  refine ⟨⟨?_, ?_, ?_, ?_, rfl, rfl⟩, ?_, ?_, ?_, rfl, rfl⟩
  · simp [kanbanReducer]
  · intro n
    simp [kanbanReducer, List.getElem?_map]
  · intro n tk h hne
    simp [kanbanReducer, List.getElem?_map, h, hne]
  · rcases hsel : s.selectedTask with _ | sel
    · simp [kanbanReducer, hsel]
    · by_cases h : sel.id = t.id <;> simp [kanbanReducer, hsel, h]
  · simp [kanbanReducer]
  · intro tk
    simp [kanbanReducer, List.mem_filter]
  · rcases hsel : s.selectedTask with _ | sel
    · simp [kanbanReducer, hsel]
    · by_cases h : sel.id = i <;> simp [kanbanReducer, hsel, h]

/-- Claim C10 witness: updating task `"a"` leaves task `"b"` in place, and
    deleting `"b"` keeps exactly the tasks with other ids. -/
theorem claim10_witness :
    (kanbanReducer exState (.UPDATE_TASK exTaskA2)).tasks[1]? =
      some exTaskB ∧
    (∀ tk : Task,
      tk ∈ (kanbanReducer exState (.DELETE_TASK "b")).tasks ↔
        (tk ∈ exState.tasks ∧ tk.id ≠ "b")) := by
  refine ⟨?_, (claim10_kanban_reducer_frame exState exTaskA2 "b").2.2.1⟩
  exact (claim10_kanban_reducer_frame exState exTaskA2 "b").1.2.2.1 1 exTaskB
    rfl (by decide)

end Kanban

namespace Goofy

/-- Claim C1 (code bug in the specified algorithm): the spec's invariant —
    "a path explicitly denied can never be allowed by any other policy
    layer" — is not delivered by the `decide` algorithm of §4.2 as written:
    its rule 1 conditions the `denied_paths` check on some validation
    finding being other than `NoneFound`, and the Safety Validator reports
    `NoneFound` for any path inside the workspace root.  A request for the
    denied in-root path `/ws/secret/key.txt` is therefore decided `Allow`
    by rule 4 (read capability) and, with a session grant, by rule 3. -/
theorem claim1_denied_path_layer_gap :
    deniedHit [["ws", "secret"]] ["ws", "secret", "key.txt"] = true ∧
    validate_path { symlinks := [] } 8
      { absolute := false, components := ["secret", "key.txt"] } ["ws"] =
      .NoneFound ∧
    decide "read_file"
      { name := "read_file", description := "read a file",
        parameter_schema := ["path"], required_capability := .Read }
      (some ["ws", "secret", "key.txt"]) [.NoneFound]
      { yolo_mode := false, session_allow := [],
        denied_paths := [["ws", "secret"]], workspace_root := ["ws"] } =
      .Allow ∧
    decide "write_file"
      { name := "write_file", description := "write a file",
        parameter_schema := ["path"], required_capability := .Write }
      (some ["ws", "secret", "key.txt"]) [.NoneFound]
      { yolo_mode := false, session_allow := ["write_file"],
        denied_paths := [["ws", "secret"]], workspace_root := ["ws"] } =
      .Allow :=
  ⟨rfl, rfl, rfl, rfl⟩

/-- Claim C2: whenever the candidate canonicalizes (resolving `..` and
    symlinks — canonicalization happens before the containment check) to a
    path that is not a descendant of `workspace_root`, `validate_path`
    reports `PathTraversal` or `AbsoluteEscape` and never `NoneFound`;
    the closed conjuncts instantiate this on a symlink inside the root
    whose target lies outside it. -/
theorem claim2_validate_path_detects_escape (fs : FileSystem) (fuel : Nat)
    (candidate : RawPath) (root : List String) (c : List String)
    (hc : canonicalize fs fuel (joinCandidate root candidate) = some c)
    (hout : underPath root c = false) :
    (validate_path fs fuel candidate root = .PathTraversal ∨
      validate_path fs fuel candidate root = .AbsoluteEscape) ∧
    validate_path fs fuel candidate root ≠ .NoneFound ∧
    validate_path exFileSystem 8
      { absolute := false, components := ["link", "passwd"] } ["ws"] =
      .PathTraversal ∧
    canonicalize exFileSystem 8 ["ws", "link", "passwd"] =
      some ["etc", "passwd"] := by
  have hval : validate_path fs fuel candidate root =
      if candidate.absolute then .AbsoluteEscape else .PathTraversal := by
    unfold validate_path
    rw [hc]
    simp [hout]
  refine ⟨?_, ?_, rfl, rfl⟩
  · rw [hval]
    cases habs : candidate.absolute <;> simp
  · rw [hval]
    cases habs : candidate.absolute <;> simp

/-- Claim C2 witness: the symlink `/ws/link → /etc` sits inside the root,
    yet `link/passwd` is flagged (as `PathTraversal`, not `NoneFound`). -/
theorem claim2_witness :
    validate_path exFileSystem 8
      { absolute := false, components := ["link", "passwd"] } ["ws"] ≠
      .NoneFound :=
  (claim2_validate_path_detects_escape exFileSystem 8
    { absolute := false, components := ["link", "passwd"] } ["ws"]
    ["etc", "passwd"] rfl rfl).2.1

/-- Claim C4: when rule 1 does not fire and the capability is `Dangerous`
    or a `DangerousToken` finding exists, `decide` returns `AskUser`
    without yolo mode and `Allow` with it; in particular
    `run_command ["rm","-rf","/"]` under `yolo_mode = true` yields a
    `DangerousToken` finding and is decided `Allow`. -/
theorem claim4_dangerous_rule_two (tool : String)
    (descriptor : ToolDescriptor) (tp : Option (List String))
    (findings : List FindingKind) (st : PermissionState)
    (h1 : rule1Fires tp findings st = false)
    (h2 : descriptor.required_capability = .Dangerous ∨
      .DangerousToken ∈ findings) :
    decide tool descriptor tp findings st =
      (if st.yolo_mode then .Allow else .AskUser) ∧
    validate_command defaultDenylist ["rm", "-rf", "/"] = .DangerousToken ∧
    decide "run_command"
      { name := "run_command", description := "run a command",
        parameter_schema := ["command"], required_capability := .Execute }
      none [.DangerousToken]
      { yolo_mode := true, session_allow := [], denied_paths := [],
        workspace_root := ["ws"] } = .Allow := by
  refine ⟨?_, rfl, rfl⟩
  rcases h2 with h | h
  · simp [Goofy.decide, h1, h]
  · have hany : (findings.any fun f => f = .DangerousToken) = true := by
      rw [List.any_eq_true]
      exact ⟨.DangerousToken, h, by simp⟩
    simp [Goofy.decide, h1, hany]

/-- Claim C4 witness: a `Dangerous`-capability request with no findings and
    yolo mode off is sent to the user. -/
theorem claim4_witness :
    decide "fdisk"
      { name := "fdisk", description := "partition a disk",
        parameter_schema := [], required_capability := .Dangerous }
      none []
      { yolo_mode := false, session_allow := [], denied_paths := [],
        workspace_root := ["ws"] } = .AskUser :=
  ((claim4_dangerous_rule_two "fdisk"
    { name := "fdisk", description := "partition a disk",
      parameter_schema := [], required_capability := .Dangerous }
    none []
    { yolo_mode := false, session_allow := [], denied_paths := [],
      workspace_root := ["ws"] } rfl (Or.inl rfl)).1).trans rfl

end Goofy

namespace Goofy

/-- The per-call state machine is deterministic: a phase has at most one
    successor under `Step`. -/
theorem step_deterministic (ctx : CallCtx) {p q q' : CallPhase}
    (h1 : Step ctx p q) (h2 : Step ctx p q') : q = q' := by
  cases h1 <;> cases h2 <;> simp_all

/-- No transition leaves a terminal phase. -/
theorem terminal_no_step (ctx : CallCtx) {p q : CallPhase}
    (hterm : p.isTerminal = true) (h : Step ctx p q) : False := by
  cases h <;> simp [CallPhase.isTerminal] at hterm

/-- Reaching `Executing` implies the arguments passed schema validation
    and the resolved permission decision is `Allow`; auxiliary inversion:
    the only producer of `PermissionChecked d` is the permission check on
    this call's own arguments. -/
theorem permChecked_eq (ctx : CallCtx) {d : PermissionDecision}
    (h : Reaches ctx .Received (.PermissionChecked d)) :
    d = ctxDecision ctx := by
  rcases Relation.ReflTransGen.cases_tail h with heq | ⟨c, _, hstep⟩
  · simp at heq
  · cases hstep
    rfl

/-- From `Executing`, the behaviour oracle drives the call to the terminal
    phase `terminalPhaseOf` computes. -/
theorem executing_to_terminal (ctx : CallCtx)
    (hs : schemaCheck ctx.descriptor.parameter_schema
      ctx.request.arguments = true)
    (hfd : finalDecision ctx = .Allow)
    (h : Reaches ctx .Received .Executing) :
    Reaches ctx .Received (terminalPhaseOf ctx) := by
  cases hb : ctx.behavior with
  | ok content metadata =>
      have ht : terminalPhaseOf ctx = .Succeeded (okResponse content metadata) := by
        unfold terminalPhaseOf
        simp [hs, hfd, hb]
      rw [ht]
      exact h.tail (.exec_ok content metadata hb)
  | opError detail =>
      have ht : terminalPhaseOf ctx = .Failed (failResponse detail) := by
        unfold terminalPhaseOf
        simp [hs, hfd, hb]
      rw [ht]
      exact h.tail (.exec_fail detail hb)
  | timesOut =>
      have ht : terminalPhaseOf ctx = .TimedOut (timeoutResponse ctx.budget) := by
        unfold terminalPhaseOf
        simp [hs, hfd, hb]
      rw [ht]
      exact h.tail (.exec_timeout hb)
  | externalCancel =>
      have ht : terminalPhaseOf ctx = .Cancelled := by
        unfold terminalPhaseOf
        simp [hs, hfd, hb]
      rw [ht]
      exact h.tail (.exec_cancel hb)

/-- Every call reaches the terminal phase `terminalPhaseOf` computes. -/
theorem reaches_terminalPhase (ctx : CallCtx) :
    Reaches ctx .Received (terminalPhaseOf ctx) := by
  by_cases hs : schemaCheck ctx.descriptor.parameter_schema
      ctx.request.arguments = true
  case neg =>
    have hs' : schemaCheck ctx.descriptor.parameter_schema
        ctx.request.arguments = false := by
      simpa using hs
    have ht : terminalPhaseOf ctx = .Rejected .InvalidArguments := by
      unfold terminalPhaseOf
      simp [hs']
    rw [ht]
    exact Relation.ReflTransGen.single (.schema_bad hs')
  case pos =>
    have h2 : Reaches ctx .Received (.PermissionChecked (ctxDecision ctx)) :=
      Relation.ReflTransGen.head (.schema_ok hs)
        (Relation.ReflTransGen.single .perm_check)
    cases hd : ctxDecision ctx with
    | Allow =>
        have hfd : finalDecision ctx = .Allow := by
          unfold finalDecision
          rw [hd]
          cases ctx.reply <;> rfl
        have hexec : Reaches ctx .Received .Executing :=
          h2.tail (by rw [hd]; exact .perm_allow)
        exact executing_to_terminal ctx hs hfd hexec
    | Deny reason =>
        have hfd : finalDecision ctx = .Deny reason := by
          unfold finalDecision
          rw [hd]
          cases ctx.reply <;> rfl
        have ht : terminalPhaseOf ctx = .Denied reason := by
          unfold terminalPhaseOf
          simp [hs, hfd]
        rw [ht]
        exact h2.tail (by rw [hd]; exact .perm_deny reason)
    | AskUser =>
        cases hr : ctx.reply with
        | AllowOnce =>
            have hfd : finalDecision ctx = .Allow := by
              unfold finalDecision
              rw [hd, hr]
              rfl
            have hexec : Reaches ctx .Received .Executing :=
              h2.tail (by rw [hd]; exact .ask_allow_once hr)
            exact executing_to_terminal ctx hs hfd hexec
        | AllowSession =>
            have hfd : finalDecision ctx = .Allow := by
              unfold finalDecision
              rw [hd, hr]
              rfl
            have hexec : Reaches ctx .Received .Executing :=
              h2.tail (by rw [hd]; exact .ask_allow_session hr)
            exact executing_to_terminal ctx hs hfd hexec
        | UserDeny =>
            have hfd : finalDecision ctx = .Deny "denied by user" := by
              unfold finalDecision
              rw [hd, hr]
              rfl
            have ht : terminalPhaseOf ctx = .Denied "denied by user" := by
              unfold terminalPhaseOf
              simp [hs, hfd]
            rw [ht]
            exact h2.tail (by rw [hd]; exact .ask_deny hr)

/-- The computed terminal phase is indeed terminal. -/
theorem terminalPhaseOf_isTerminal (ctx : CallCtx) :
    (terminalPhaseOf ctx).isTerminal = true := by
  unfold terminalPhaseOf
  by_cases hs : schemaCheck ctx.descriptor.parameter_schema
      ctx.request.arguments = true
  · cases hfd : finalDecision ctx with
    | Allow => cases hb : ctx.behavior <;> simp [hs, hfd, hb, CallPhase.isTerminal]
    | Deny reason => simp [hs, hfd, CallPhase.isTerminal]
    | AskUser => simp [hs, hfd, CallPhase.isTerminal]
  · have hs' : schemaCheck ctx.descriptor.parameter_schema
        ctx.request.arguments = false := by simpa using hs
    simp [hs', CallPhase.isTerminal]

/-- `runCall` tags its outcome with the request's own `call_id`. -/
theorem runCall_callId (ctx : CallCtx) :
    (runCall ctx).callId = ctx.request.call_id := by
  unfold runCall
  by_cases hs : schemaCheck ctx.descriptor.parameter_schema
      ctx.request.arguments = true
  · cases hfd : finalDecision ctx with
    | Allow => cases hb : ctx.behavior <;> simp [hs, hfd, hb, Outcome.callId]
    | Deny reason => simp [hs, hfd, Outcome.callId]
    | AskUser => simp [hs, hfd, Outcome.callId]
  · have hs' : schemaCheck ctx.descriptor.parameter_schema
        ctx.request.arguments = false := by simpa using hs
    simp [hs', Outcome.callId]

end Goofy

namespace Goofy

/-- Claim C3: in every execution trace of one call, the `Executing` phase
    is reached only after the permission decision computed from this very
    call's tool name and arguments (via its own validator findings and
    target path), resolved through the user's reply when it was `AskUser`,
    is `Allow`; the decision is a function of the call's own context, so no
    decision for different arguments can stand in for it. -/
theorem claim3_execute_only_after_allow (ctx : CallCtx)
    (h : Reaches ctx .Received .Executing) :
    resolveAsk
      (decide ctx.request.tool_name ctx.descriptor (ctxTargetPath ctx)
        (ctxFindings ctx) ctx.st) ctx.reply = .Allow := by
  rcases Relation.ReflTransGen.cases_tail h with heq | ⟨c, hreach, hstep⟩
  · simp at heq
  · cases hstep with
    | perm_allow =>
        have hd := permChecked_eq ctx hreach
        show resolveAsk (ctxDecision ctx) ctx.reply = .Allow
        rw [← hd]
        cases ctx.reply <;> rfl
    | ask_allow_once hr =>
        have hd := permChecked_eq ctx hreach
        show resolveAsk (ctxDecision ctx) ctx.reply = .Allow
        rw [← hd, hr]
        rfl
    | ask_allow_session hr =>
        have hd := permChecked_eq ctx hreach
        show resolveAsk (ctxDecision ctx) ctx.reply = .Allow
        rw [← hd, hr]
        rfl

/-- Claim C3 witness: the concrete in-workspace read call actually reaches
    `Executing`, and its own decision resolves to `Allow`. -/
theorem claim3_witness :
    resolveAsk
      (decide exCtx.request.tool_name exCtx.descriptor (ctxTargetPath exCtx)
        (ctxFindings exCtx) exCtx.st) exCtx.reply = .Allow := by
  have hd : ctxDecision exCtx = .Allow := rfl
  have htrace : Reaches exCtx .Received .Executing :=
    Relation.ReflTransGen.head (.schema_ok rfl)
      (Relation.ReflTransGen.head (hd ▸ Step.perm_check)
        (Relation.ReflTransGen.single .perm_allow))
  exact claim3_execute_only_after_allow exCtx htrace

/-- Claim C5: every accepted `ToolRequest` yields exactly one outcome
    correlated by its `call_id` — `runCall` is total and tags the outcome
    with the request's `call_id`; the state machine always reaches a
    terminal phase; terminal phases have no outgoing transition (so no
    second outcome); and transitions are deterministic. -/
theorem claim5_exactly_one_outcome (ctx : CallCtx) :
    (runCall ctx).callId = ctx.request.call_id ∧
    Reaches ctx .Received (terminalPhaseOf ctx) ∧
    (terminalPhaseOf ctx).isTerminal = true ∧
    (∀ p q : CallPhase, p.isTerminal = true → ¬ Step ctx p q) ∧
    (∀ p q q' : CallPhase, Step ctx p q → Step ctx p q' → q = q') :=
  ⟨runCall_callId ctx, reaches_terminalPhase ctx,
    terminalPhaseOf_isTerminal ctx,
    fun _ _ hp hstep => terminal_no_step ctx hp hstep,
    fun _ _ _ h1 h2 => step_deterministic ctx h1 h2⟩

/-- Claim C5 witness: the concrete read call's outcome is correlated by
    `"call-1"`, and its terminal `Succeeded` phase admits no further
    transition. -/
theorem claim5_witness :
    (runCall exCtx).callId = exCtx.request.call_id ∧
    ¬ Step exCtx (.Succeeded (okResponse "hello" none)) .Executing :=
  ⟨(claim5_exactly_one_outcome exCtx).1,
    (claim5_exactly_one_outcome exCtx).2.2.2.1
      (.Succeeded (okResponse "hello" none)) .Executing rfl⟩

/-- Claim C7: an operational error or an elapsed time budget yields a
    normal `ToolResponse` with `success = false` (not a crash), and the
    Engine never retries — `Failed` and `TimedOut` are terminal, with no
    transition out (in particular none back to `Executing`). -/
theorem claim7_failures_are_normal_responses (ctx : CallCtx) :
    (∀ detail : String, ctx.behavior = .opError detail →
      schemaCheck ctx.descriptor.parameter_schema ctx.request.arguments =
        true →
      finalDecision ctx = .Allow →
      runCall ctx = .response ctx.request.call_id (failResponse detail) ∧
        (failResponse detail).success = false) ∧
    (ctx.behavior = .timesOut →
      schemaCheck ctx.descriptor.parameter_schema ctx.request.arguments =
        true →
      finalDecision ctx = .Allow →
      runCall ctx =
          .response ctx.request.call_id (timeoutResponse ctx.budget) ∧
        (timeoutResponse ctx.budget).success = false) ∧
    (∀ (r : ToolResponse) (q : CallPhase), ¬ Step ctx (.Failed r) q) ∧
    (∀ (r : ToolResponse) (q : CallPhase), ¬ Step ctx (.TimedOut r) q) := by
  refine ⟨?_, ?_,
    fun r q h => terminal_no_step ctx
      (show (CallPhase.Failed r).isTerminal = true from rfl) h,
    fun r q h => terminal_no_step ctx
      (show (CallPhase.TimedOut r).isTerminal = true from rfl) h⟩
  · intro detail hb hs hfd
    refine ⟨?_, rfl⟩
    unfold runCall
    simp [hs, hfd, hb]
  · intro hb hs hfd
    refine ⟨?_, rfl⟩
    unfold runCall
    simp [hs, hfd, hb]

/-- Claim C7 witness: the read call with a failing implementation returns a
    `success = false` response, still tagged `"call-1"`. -/
theorem claim7_witness :
    runCall exCtxFail =
      .response "call-1" (failResponse "No such file") ∧
      (failResponse "No such file").success = false :=
  (claim7_failures_are_normal_responses exCtxFail).1 "No such file" rfl rfl
    rfl

/-- Claim C8: cancelling a call already in a terminal state leaves the
    record and its recorded result unchanged and returns the original
    terminal result; consequently cancellation is idempotent — a second
    cancel of any call returns exactly what the first one produced. -/
theorem claim8_cancel_idempotent (r : CallRecord) :
    (r.phase.isTerminal = true → cancelCall r = (r, r.result)) ∧
    cancelCall (cancelCall r).1 = ((cancelCall r).1, (cancelCall r).2) := by
  constructor
  · intro h
    unfold cancelCall
    simp [h]
  · by_cases h : r.phase.isTerminal = true
    · simp [cancelCall, h]
    · have h' : r.phase.isTerminal = false := by simpa using h
      have h1 : cancelCall r =
          ({ r with
              phase := .Cancelled
              result :=
                some (Outcome.failure r.call_id CoreError.Cancelled) },
           some (Outcome.failure r.call_id CoreError.Cancelled)) := by
        unfold cancelCall
        simp [h']
      rw [h1]
      rfl

/-- Claim C8 witness: cancelling the already-succeeded record returns it
    and its recorded result unchanged. -/
theorem claim8_witness :
    cancelCall exRecord = (exRecord, exRecord.result) :=
  (claim8_cancel_idempotent exRecord).1 rfl

end Goofy

namespace Goofy

/-- Every entry of a registry built by `register` calls carries the name of
    one of the attempted registrations (or of the initial registry). -/
theorem buildRegistry_mem_name {α : Type} (n : String) :
    ∀ ops reg : List (ToolDescriptor × α),
      (∀ e ∈ reg, e.1.name ≠ n) → (∀ o ∈ ops, o.1.name ≠ n) →
      ∀ e ∈ ops.foldl (fun racc o => (register racc o.1 o.2).1) reg,
        e.1.name ≠ n := by
  intro ops
  induction ops with
  | nil =>
      intro reg hreg _ e he
      exact hreg e he
  | cons o os ih =>
      intro reg hreg hops e he
      simp only [List.foldl_cons] at he
      refine ih _ ?_ (fun o' ho' => hops o' (List.mem_cons_of_mem _ ho')) e he
      intro e' he'
      unfold register at he'
      by_cases hdup : (reg.any fun x => x.1.name == o.1.name) = true
      · rw [if_pos hdup] at he'
        exact hreg e' he'
      · rw [if_neg hdup] at he'
        rcases List.mem_append.mp he' with hmem | hmem
        · exact hreg e' hmem
        · have heq : e' = o := by simpa using hmem
          rw [heq]
          exact hops o (List.mem_cons_self o os)

/-- Claim C6: after a successful `register(name, descriptor, impl)`,
    `resolve(name)` returns exactly that pair; resolving a name never
    passed to `register` while building a registry yields `UnknownTool`;
    and registering an already-resolvable name fails with `DuplicateTool`,
    leaving the registry unchanged. -/
theorem claim6_registry_contract {α : Type} :
    (∀ (reg : List (ToolDescriptor × α)) (d : ToolDescriptor) (impl : α),
      (register reg d impl).2 = none →
      resolve (register reg d impl).1 d.name = .ok (d, impl)) ∧
    (∀ (ops : List (ToolDescriptor × α)) (n : String),
      (∀ o ∈ ops, o.1.name ≠ n) →
      resolve (buildRegistry ops) n = .error .UnknownTool) ∧
    (∀ (reg : List (ToolDescriptor × α)) (d : ToolDescriptor) (impl : α)
        (x : ToolDescriptor × α),
      resolve reg d.name = .ok x →
      register reg d impl = (reg, some .DuplicateTool)) := by
  refine ⟨?_, ?_, ?_⟩
  · intro reg d impl h
    have hdup : reg.any (fun e => e.1.name == d.name) = false := by
      by_contra hx
      have hx' : reg.any (fun e => e.1.name == d.name) = true := by
        simpa using hx
      unfold register at h
      rw [if_pos hx'] at h
      simp at h
    unfold register at h ⊢
    rw [if_neg (by simp [hdup])] at h ⊢
    show resolve (reg ++ [(d, impl)]) d.name = .ok (d, impl)
    unfold resolve
    rw [List.find?_append]
    have hnone : reg.find? (fun e => e.1.name == d.name) = none := by
      rw [List.find?_eq_none]
      intro x hx
      have := List.any_eq_false.mp hdup x hx
      simpa using this
    rw [hnone]
    simp
  · intro ops n hops
    unfold resolve
    have hnone : (buildRegistry ops).find? (fun e => e.1.name == n) =
        none := by
      rw [List.find?_eq_none]
      intro x hx
      have := buildRegistry_mem_name n ops [] (by simp) hops x hx
      simpa using this
    rw [hnone]
  · intro reg d impl x hres
    unfold resolve at hres
    cases hfind : reg.find? (fun e => e.1.name == d.name) with
    | none =>
        rw [hfind] at hres
        simp at hres
    | some y =>
        have hy := List.find?_some hfind
        have hmem : y ∈ reg := List.mem_of_find?_eq_some hfind
        unfold register
        rw [if_pos (List.any_eq_true.mpr ⟨y, hmem, hy⟩)]

/-- Claim C6 witness: registering `read_file` in an empty registry and
    resolving it returns exactly the registered pair. -/
theorem claim6_witness :
    resolve (register ([] : List (ToolDescriptor × Nat))
      exCtx.descriptor 7).1 exCtx.descriptor.name =
      .ok (exCtx.descriptor, 7) :=
  (claim6_registry_contract (α := Nat)).1 [] exCtx.descriptor 7 rfl

end Goofy
